import Mathlib

/-!
Verification of the duplicate-image scanner in `dupsleuth.py`.

The scanner walks a directory tree, keeps the allow-listed image files
(case-insensitive extensions .png/.jpg/.jpeg), computes a perceptual hash per
file (`calculate_phash`, which returns None on any decode failure), consults an
in-memory dict `image_hashes` mapping hash to first-seen path
(`compare_images`), moves detected duplicates to the trash (`move_to_trash`)
and, when the move succeeded, appends a line to the manifest `duplicates.txt`.
Progress, duplicate and terminal notifications are posted to the GUI via
`GLib.idle_add`; we model the posted calls as an ordered event trace.

External effects are modelled as oracles in an environment `Env`:
  - `files`   : the sequence of file paths yielded by `os.walk` (both the
                counting pass and the processing pass see the same sequence;
                `os.walk` yields nothing for a missing root and raises nothing);
  - `hash`    : the result of `calculate_phash` per path, `none` on failure
                (the Python function catches every exception and returns None);
  - `moveOk`  : whether `send2trash` succeeds for a path (`move_to_trash`
                catches the exception and returns False);
  - `writeRaises n` : whether the n-th `dup_file.write` call raises;
  - `openRaises`    : whether `open("duplicates.txt", "w")` raises.

Exceptions escaping the per-file loop (open or write failures) are caught by
the `except` clause of `scan_images`, which posts an error status event; the
`finally` clause always posts the terminal Done event (`stop_progress_bar`).
-/

namespace DupSleuth

/-- Result of `calculate_phash`: `some h` for a decoded image, `none` when the
Python function caught an exception and returned None. -/
abbrev Fingerprint := Option String

/-- The dict `image_hashes`, as an insertion-ordered association list from
fingerprint to first-seen path.  Keys are unique because insertion happens only
after a failed lookup, so first-match lookup agrees with dict lookup.  Note the
Python dict accepts None as a key, hence keys are `Fingerprint = Option String`. -/
abbrev Index := List (Fingerprint × String)

/-- Dict lookup `image_hashes[k]` / membership `k in image_hashes`. -/
def idxFind : Index → Fingerprint → Option String
  | [], _ => none
  | (k, v) :: rest, f => if k = f then some v else idxFind rest f

/-- The allow-list test `file_name.lower().endswith((".png", ".jpg", ".jpeg"))`,
written over the character list of the name (a tuple argument to `endswith`
succeeds when any of its members is a suffix). -/
def isImageFile (file_name : String) : Bool :=
  let lower : List Char := file_name.data.map Char.toLower
  (".png".data.isSuffixOf lower) || (".jpg".data.isSuffixOf lower)
    || (".jpeg".data.isSuffixOf lower)

/-- Return value of `compare_images`: the tuple
`(is_duplicate, new_hash, original_file)` plus the dict after the call (the
Python function mutates `image_hashes` in place). -/
structure CompareResult where
  is_dup : Bool
  new_hash : Fingerprint
  original : Option String
  index : Index
deriving Repr, DecidableEq

/-- Model of `compare_images(image_hashes, image_path)`: compute the phash (modelled by
the oracle `hash`), report a duplicate and the stored original if the hash is
already a key, otherwise insert `hash -> str(image_path)`. -/
def compare_images (image_hashes : Index) (hash : String → Fingerprint)
    (image_path : String) : CompareResult :=
  let new_hash := hash image_path
  match idxFind image_hashes new_hash with
  | some orig => ⟨true, new_hash, some orig, image_hashes⟩
  | none => ⟨false, new_hash, none, image_hashes ++ [(new_hash, image_path)]⟩

/-- One GUI notification posted by the worker via `GLib.idle_add`.
`progress` is `update_progress_bar` with the per-file text and the fraction
`scanned / total` (we record numerator and divisor); `duplicateFound` is
`add_duplicate_image(file_path, original_file)`; `errorEvent` is the
`update_status_bar` call from the `except` clause; `done` is
`stop_progress_bar` (text "Done", fraction 1.0, no counts).  `cancelled` is the
Cancelled terminal of the specification's event vocabulary; no code path of
`scan_images` constructs it. -/
inductive Event where
  | progress (scanned total : Nat)
  | duplicateFound (duplicate_path original_path : String)
  | errorEvent
  | done
  | cancelled
deriving Repr, DecidableEq

/-- Environment of oracles for one run of `scan_images` (see module docstring). -/
structure Env where
  files : List String
  hash : String → Fingerprint
  moveOk : String → Bool
  writeRaises : Nat → Bool
  openRaises : Bool

/-- Mutable state of the processing loop of `scan_images`: the dict
`image_hashes`, the counter `scanned_files`, the number of successful manifest
writes so far, and the ghost trace of posted events, manifest lines written,
and files successfully moved to trash. -/
structure LoopState where
  index : Index
  scanned : Nat
  writes : Nat
  events : List Event
  manifest : List String
  trashed : List String
deriving Repr

/-- State at entry of the processing loop: empty dict, zero counters. -/
def initState : LoopState := ⟨[], 0, 0, [], [], []⟩

/-- The manifest line
`f"Duplicate found: {original_file} and {file_path} (moved to trash)\n"`
(braces denote Python interpolation). -/
def manifestLine (original_file file_path : String) : String :=
  "Duplicate found: " ++ original_file ++ " and " ++ file_path
    ++ " (moved to trash)\n"

/-- Tail of every loop iteration: `scanned_files += 1` followed by the
progress-bar update with fraction `scanned_files / total_files`.  The `Bool`
is the raised-exception flag (the progress update raises nothing). -/
def finishFile (total : Nat) (s : LoopState) : LoopState × Bool :=
  ({ s with scanned := s.scanned + 1,
            events := s.events ++ [Event.progress (s.scanned + 1) total] }, false)

/-- Body of the per-file loop of `scan_images` for one allow-listed file `p`:
call `compare_images`; on a duplicate post `add_duplicate_image`, call
`move_to_trash`, and on success write the manifest line (which may raise);
always finish with the progress update unless a write raised. -/
def scanStep (env : Env) (total : Nat) (s : LoopState) (p : String) :
    LoopState × Bool :=
  let r := compare_images s.index env.hash p
  let s1 : LoopState := { s with index := r.index }
  if r.is_dup then
    let o := r.original.getD ""
    let s2 := { s1 with events := s1.events ++ [Event.duplicateFound p o] }
    if env.moveOk p then
      let s3 := { s2 with trashed := s2.trashed ++ [p] }
      if env.writeRaises s3.writes then
        (s3, true)
      else
        finishFile total
          { s3 with manifest := s3.manifest ++ [manifestLine o p],
                    writes := s3.writes + 1 }
    else
      finishFile total s2
  else
    finishFile total s1

/-- The processing loop over the allow-listed files.  A raised exception
(second component `true`) leaves the loop at once; the remaining files are not
processed. -/
def scanLoop (env : Env) (total : Nat) (s : LoopState) :
    List String → LoopState × Bool
  | [] => (s, false)
  | p :: rest =>
    match scanStep env total s p with
    | (s', true) => (s', true)
    | (s', false) => scanLoop env total s' rest

/-- The counting pass: the number of allow-listed files seen by `os.walk`. -/
def countFiles (files : List String) : Nat := (files.filter isImageFile).length

/-- Observable outcome of one `scan_images` run: the posted event trace, the
manifest lines written, the files moved to trash, the final counter and dict,
whether `duplicates.txt` was opened (hence created/truncated), and whether an
exception reached the `except` clause. -/
structure ScanResult where
  events : List Event
  manifest : List String
  trashed : List String
  scanned : Nat
  index : Index
  manifestCreated : Bool
  aborted : Bool
deriving Repr

/-- The processing loop as run by `scan_images`: from the initial state, over
the allow-listed files, with `total_files` from the counting pass. -/
def loopRun (env : Env) : LoopState × Bool :=
  scanLoop env (countFiles env.files) initState (env.files.filter isImageFile)

/-- Model of `scan_images(directory, app)`: counting pass, open the manifest (a failure
to open goes straight to the `except` clause), processing loop, and in all
cases the `finally` clause posts the terminal Done event last. -/
def scanImages (env : Env) : ScanResult :=
  if env.openRaises then
    { events := [Event.errorEvent, Event.done], manifest := [], trashed := [],
      scanned := 0, index := [], manifestCreated := false, aborted := true }
  else
    let r := loopRun env
    { events := r.1.events
        ++ (if r.2 then [Event.errorEvent, Event.done] else [Event.done]),
      manifest := r.1.manifest, trashed := r.1.trashed, scanned := r.1.scanned,
      index := r.1.index, manifestCreated := true, aborted := r.2 }

/-- The duplicate notifications of a trace, as pairs
`(duplicate_path, original_path)` in posting order. -/
def dupEvents : List Event → List (String × String)
  | [] => []
  | Event.duplicateFound d o :: rest => (d, o) :: dupEvents rest
  | _ :: rest => dupEvents rest

/-- Value of `duplicate_count` for a run: the number of duplicate notifications. -/
def dupCount (events : List Event) : Nat := (dupEvents events).length

/-- Whether an event is the Cancelled terminal of the specification. -/
def isCancelledEvent : Event → Bool
  | Event.cancelled => true
  | _ => false

/-- Whether an event is the Done terminal posted by `stop_progress_bar`. -/
def isDoneEvent : Event → Bool
  | Event.done => true
  | _ => false

/-- A second scan of the same tree after the first run: the enumeration yields
exactly the files the first run did not move to trash, with the same
fingerprint, trash and manifest oracles (fingerprinting is deterministic in
the file content, which is unchanged for surviving files). -/
def secondRun (env : Env) : Env :=
  { env with
    files := env.files.filter (fun p => decide (p ∉ (scanImages env).trashed)) }

/-- The files of `L` that `compare_images` classifies as duplicates when the
dict starts as `idx`, in order (pure restatement of the dict evolution of the
loop). -/
def dupsFrom (hsh : String → Fingerprint) (idx : Index) : List String → List String
  | [] => []
  | p :: rest =>
    match idxFind idx (hsh p) with
    | some _ => p :: dupsFrom hsh idx rest
    | none => dupsFrom hsh (idx ++ [(hsh p, p)]) rest

/-- The files of `L` that `compare_images` classifies as unique (first of their
fingerprint) when the dict starts as `idx`, in order. -/
def keptFrom (hsh : String → Fingerprint) (idx : Index) : List String → List String
  | [] => []
  | p :: rest =>
    match idxFind idx (hsh p) with
    | some _ => keptFrom hsh idx rest
    | none => p :: keptFrom hsh (idx ++ [(hsh p, p)]) rest

/-- Classification of the events the processing loop itself can post: progress
updates carry the divisor `total`, duplicate notifications are unrestricted,
and the loop never posts error, terminal or cancelled events. -/
def loopEvent (total : Nat) : Event → Prop
  | Event.progress _ d => d = total
  | Event.duplicateFound _ _ => True
  | Event.errorEvent => False
  | Event.done => False
  | Event.cancelled => False

/-! ## Basic lemmas on the dict -/

lemma idxFind_append_some {a : Index} {k : Fingerprint} {v : String}
    (h : idxFind a k = some v) (b : Index) : idxFind (a ++ b) k = some v := by
  induction a with
  | nil => simp [idxFind] at h
  | cons hd tl ih =>
    obtain ⟨k', v'⟩ := hd
    by_cases hk : k' = k
    · subst hk
      simp [idxFind] at h ⊢
      exact h
    · simp [idxFind, hk] at h ⊢
      exact ih h

lemma idxFind_append_none {a : Index} {k : Fingerprint}
    (h : idxFind a k = none) (b : Index) : idxFind (a ++ b) k = idxFind b k := by
  induction a with
  | nil => simp [idxFind]
  | cons hd tl ih =>
    obtain ⟨k', v'⟩ := hd
    by_cases hk : k' = k
    · subst hk
      simp [idxFind] at h
    · simp [idxFind, hk] at h ⊢
      exact ih h

lemma idxFind_insert_self {a : Index} {k : Fingerprint} (v : String)
    (h : idxFind a k = none) : idxFind (a ++ [(k, v)]) k = some v := by
  rw [idxFind_append_none h]
  simp [idxFind]

lemma idxFind_append_none_left {a b : Index} {k : Fingerprint}
    (h : idxFind (a ++ b) k = none) : idxFind a k = none := by
  cases ha : idxFind a k with
  | none => rfl
  | some v => rw [idxFind_append_some ha b] at h; exact absurd h (by simp)

/-! ## Branch lemmas for compare_images and the loop body -/

lemma compare_images_some {idx : Index} {hsh : String → Fingerprint} {p : String}
    {o : String} (h : idxFind idx (hsh p) = some o) :
    compare_images idx hsh p = ⟨true, hsh p, some o, idx⟩ := by
  simp [compare_images, h]

lemma compare_images_none {idx : Index} {hsh : String → Fingerprint} {p : String}
    (h : idxFind idx (hsh p) = none) :
    compare_images idx hsh p = ⟨false, hsh p, none, idx ++ [(hsh p, p)]⟩ := by
  simp [compare_images, h]

lemma scanStep_unique {env : Env} {total : Nat} {s : LoopState} {p : String}
    (h : idxFind s.index (env.hash p) = none) :
    scanStep env total s p =
      ({ s with index := s.index ++ [(env.hash p, p)],
                scanned := s.scanned + 1,
                events := s.events ++ [Event.progress (s.scanned + 1) total] },
       false) := by
  simp [scanStep, compare_images_none h, finishFile]

lemma scanStep_dup_moved {env : Env} {total : Nat} {s : LoopState} {p : String}
    {o : String} (h : idxFind s.index (env.hash p) = some o)
    (hm : env.moveOk p = true) (hw : env.writeRaises s.writes = false) :
    scanStep env total s p =
      ({ s with events := s.events
                  ++ [Event.duplicateFound p o, Event.progress (s.scanned + 1) total],
                trashed := s.trashed ++ [p],
                manifest := s.manifest ++ [manifestLine o p],
                writes := s.writes + 1,
                scanned := s.scanned + 1 },
       false) := by
  simp [scanStep, compare_images_some h, hm, hw, finishFile]

lemma scanStep_dup_write_fails {env : Env} {total : Nat} {s : LoopState}
    {p : String} {o : String} (h : idxFind s.index (env.hash p) = some o)
    (hm : env.moveOk p = true) (hw : env.writeRaises s.writes = true) :
    scanStep env total s p =
      ({ s with events := s.events ++ [Event.duplicateFound p o],
                trashed := s.trashed ++ [p] },
       true) := by
  simp [scanStep, compare_images_some h, hm, hw]

lemma scanStep_dup_not_moved {env : Env} {total : Nat} {s : LoopState}
    {p : String} {o : String} (h : idxFind s.index (env.hash p) = some o)
    (hm : env.moveOk p = false) :
    scanStep env total s p =
      ({ s with events := s.events
                  ++ [Event.duplicateFound p o, Event.progress (s.scanned + 1) total],
                scanned := s.scanned + 1 },
       false) := by
  simp [scanStep, compare_images_some h, hm, finishFile]

/-! ## Loop invariants -/

lemma scanStep_index (env : Env) (total : Nat) (s : LoopState) (p : String) :
    (scanStep env total s p).1.index = s.index
  ∨ (scanStep env total s p).1.index = s.index ++ [(env.hash p, p)] := by
  rcases hfind : idxFind s.index (env.hash p) with _ | o
  · rw [scanStep_unique hfind]
    right; rfl
  · cases hm : env.moveOk p
    · rw [scanStep_dup_not_moved hfind hm]
      left; rfl
    · cases hw : env.writeRaises s.writes
      · rw [scanStep_dup_moved hfind hm hw]
        left; rfl
      · rw [scanStep_dup_write_fails hfind hm hw]
        left; rfl

lemma scanLoop_find_mono (env : Env) (total : Nat) :
    ∀ (L : List String) (s : LoopState) (f : Fingerprint) (o : String),
    idxFind s.index f = some o →
    idxFind (scanLoop env total s L).1.index f = some o := by
  intro L
  induction L with
  | nil => intro s f o h; simpa [scanLoop] using h
  | cons p rest ih =>
    intro s f o h
    rcases hstep : scanStep env total s p with ⟨s', b⟩
    have hidx : idxFind s'.index f = some o := by
      rcases scanStep_index env total s p with hs | hs <;> rw [hstep] at hs
      · rw [hs]; exact h
      · rw [hs]; exact idxFind_append_some h _
    cases b
    · simp only [scanLoop, hstep]
      exact ih s' f o hidx
    · simp only [scanLoop, hstep]
      exact hidx

lemma scanStep_events_sub (env : Env) (total : Nat) (s : LoopState) (p : String) :
    ∀ e ∈ (scanStep env total s p).1.events, e ∈ s.events ∨ loopEvent total e := by
  intro e he
  rcases hfind : idxFind s.index (env.hash p) with _ | o
  · rw [scanStep_unique hfind] at he
    simp only [List.mem_append, List.mem_singleton] at he
    rcases he with he | he
    · exact Or.inl he
    · subst he; exact Or.inr rfl
  · cases hm : env.moveOk p
    · rw [scanStep_dup_not_moved hfind hm] at he
      simp only [List.mem_append, List.mem_cons, List.not_mem_nil, or_false] at he
      rcases he with he | he | he
      · exact Or.inl he
      · subst he; exact Or.inr trivial
      · subst he; exact Or.inr rfl
    · cases hw : env.writeRaises s.writes
      · rw [scanStep_dup_moved hfind hm hw] at he
        simp only [List.mem_append, List.mem_cons, List.not_mem_nil, or_false] at he
        rcases he with he | he | he
        · exact Or.inl he
        · subst he; exact Or.inr trivial
        · subst he; exact Or.inr rfl
      · rw [scanStep_dup_write_fails hfind hm hw] at he
        simp only [List.mem_append, List.mem_singleton] at he
        rcases he with he | he
        · exact Or.inl he
        · subst he; exact Or.inr trivial

lemma scanLoop_events_loopEvent (env : Env) (total : Nat) :
    ∀ (L : List String) (s : LoopState),
    (∀ e ∈ s.events, loopEvent total e) →
    ∀ e ∈ (scanLoop env total s L).1.events, loopEvent total e := by
  intro L
  induction L with
  | nil => intro s h e he; exact h e he
  | cons p rest ih =>
    intro s h e he
    rcases hstep : scanStep env total s p with ⟨s', b⟩
    have hs' : ∀ e ∈ s'.events, loopEvent total e := by
      intro e' he'
      have := scanStep_events_sub env total s p e' (by rw [hstep]; exact he')
      rcases this with h1 | h1
      · exact h e' h1
      · exact h1
    cases b
    · rw [scanLoop, hstep] at he
      exact ih s' hs' e he
    · rw [scanLoop, hstep] at he
      exact hs' e he

/-- Every trace of `scan_images` is a prefix of loop-posted and error events
followed by the single terminal Done event from the `finally` clause. -/
lemma scanImages_events_shape (env : Env) :
    ∃ pre, (scanImages env).events = pre ++ [Event.done]
      ∧ ∀ e ∈ pre, loopEvent (countFiles env.files) e ∨ e = Event.errorEvent := by
  by_cases ho : env.openRaises
  · refine ⟨[Event.errorEvent], ?_, ?_⟩
    · simp [scanImages, ho]
    · intro e he
      simp only [List.mem_singleton] at he
      exact Or.inr he
  · have hloop : ∀ e ∈ (loopRun env).1.events, loopEvent (countFiles env.files) e := by
      intro e he
      exact scanLoop_events_loopEvent env (countFiles env.files) _ initState
        (by intro e' he'; simp [initState] at he') e he
    rcases hb : (loopRun env).2 with _ | _
    · refine ⟨(loopRun env).1.events, ?_, ?_⟩
      · simp [scanImages, ho, hb]
      · intro e he; exact Or.inl (hloop e he)
    · refine ⟨(loopRun env).1.events ++ [Event.errorEvent], ?_, ?_⟩
      · simp [scanImages, ho, hb]
      · intro e he
        rcases List.mem_append.mp he with h1 | h1
        · exact Or.inl (hloop e h1)
        · simp only [List.mem_singleton] at h1
          exact Or.inr h1

lemma dupEvents_append (a b : List Event) :
    dupEvents (a ++ b) = dupEvents a ++ dupEvents b := by
  induction a with
  | nil => simp [dupEvents]
  | cons e rest ih => cases e <;> simp [dupEvents, ih]

/-- Relation maintained by the loop when the manifest is writable: the manifest
holds exactly one line, in the exact format, for each duplicate notification
whose move to trash succeeded, in order, and the trashed files are exactly the
duplicates whose move succeeded. -/
def manifestInv (env : Env) (s : LoopState) : Prop :=
    s.manifest = ((dupEvents s.events).filter (fun pr => env.moveOk pr.1)).map
      (fun pr => manifestLine pr.2 pr.1)
  ∧ s.trashed = ((dupEvents s.events).filter (fun pr => env.moveOk pr.1)).map
      Prod.fst

lemma scanLoop_manifestInv (env : Env) (hw : ∀ n, env.writeRaises n = false)
    (total : Nat) :
    ∀ (L : List String) (s : LoopState), manifestInv env s →
    manifestInv env (scanLoop env total s L).1 := by
  intro L
  induction L with
  | nil => intro s h; exact h
  | cons p rest ih =>
    intro s h
    rcases hfind : idxFind s.index (env.hash p) with _ | o
    · simp only [scanLoop, scanStep_unique hfind]
      apply ih
      constructor
      · simp [dupEvents_append, dupEvents, h.1]
      · simp [dupEvents_append, dupEvents, h.2]
    · cases hm : env.moveOk p
      · simp only [scanLoop, scanStep_dup_not_moved hfind hm]
        apply ih
        constructor
        · simp [dupEvents_append, dupEvents, List.filter_append, hm, h.1]
        · simp [dupEvents_append, dupEvents, List.filter_append, hm, h.2]
      · simp only [scanLoop, scanStep_dup_moved hfind hm (hw s.writes)]
        apply ih
        constructor
        · simp [dupEvents_append, dupEvents, List.filter_append, hm, h.1]
        · simp [dupEvents_append, dupEvents, List.filter_append, hm, h.2]

lemma scanLoop_no_abort (env : Env) (hw : ∀ n, env.writeRaises n = false)
    (total : Nat) :
    ∀ (L : List String) (s : LoopState), (scanLoop env total s L).2 = false := by
  intro L
  induction L with
  | nil => intro s; rfl
  | cons p rest ih =>
    intro s
    rcases hfind : idxFind s.index (env.hash p) with _ | o
    · simp only [scanLoop, scanStep_unique hfind]
      exact ih _
    · cases hm : env.moveOk p
      · simp only [scanLoop, scanStep_dup_not_moved hfind hm]
        exact ih _
      · simp only [scanLoop, scanStep_dup_moved hfind hm (hw s.writes)]
        exact ih _

lemma scanLoop_trashed (env : Env) (hmove : ∀ p, env.moveOk p = true)
    (hw : ∀ n, env.writeRaises n = false) (total : Nat) :
    ∀ (L : List String) (s : LoopState),
    (scanLoop env total s L).1.trashed = s.trashed ++ dupsFrom env.hash s.index L := by
  intro L
  induction L with
  | nil => intro s; simp [scanLoop, dupsFrom]
  | cons p rest ih =>
    intro s
    rcases hfind : idxFind s.index (env.hash p) with _ | o
    · simp only [scanLoop, scanStep_unique hfind]
      rw [ih]
      simp [dupsFrom, hfind]
    · simp only [scanLoop, scanStep_dup_moved hfind (hmove p) (hw s.writes)]
      rw [ih]
      simp [dupsFrom, hfind, List.append_assoc]

lemma scanLoop_dupsFrom_nil (env : Env) (total : Nat) :
    ∀ (L : List String) (s : LoopState), dupsFrom env.hash s.index L = [] →
    dupEvents (scanLoop env total s L).1.events = dupEvents s.events
  ∧ (scanLoop env total s L).1.manifest = s.manifest := by
  intro L
  induction L with
  | nil => intro s _; exact ⟨rfl, rfl⟩
  | cons p rest ih =>
    intro s hnil
    rcases hfind : idxFind s.index (env.hash p) with _ | o
    · simp only [dupsFrom, hfind] at hnil
      simp only [scanLoop, scanStep_unique hfind]
      obtain ⟨h1, h2⟩ := ih { s with index := s.index ++ [(env.hash p, p)], scanned := s.scanned + 1, events := s.events ++ [Event.progress (s.scanned + 1) total] } hnil
      refine ⟨?_, h2⟩
      rw [h1]
      simp [dupEvents_append, dupEvents]
    · exfalso
      simp [dupsFrom, hfind] at hnil

/-! ## Fingerprint distinctness of surviving files (for idempotence) -/

lemma keptFrom_spec (hsh : String → Fingerprint) :
    ∀ (L : List String) (idx : Index),
    (∀ p ∈ keptFrom hsh idx L, idxFind idx (hsh p) = none)
  ∧ ((keptFrom hsh idx L).map hsh).Nodup := by
  intro L
  induction L with
  | nil =>
    intro idx
    constructor
    · intro p hp
      simp [keptFrom] at hp
    · simp [keptFrom]
  | cons p rest ih =>
    intro idx
    rcases hfind : idxFind idx (hsh p) with _ | o
    · have ih' := ih (idx ++ [(hsh p, p)])
      constructor
      · intro q hq
        simp only [keptFrom, hfind, List.mem_cons] at hq
        rcases hq with rfl | hq
        · exact hfind
        · exact idxFind_append_none_left (ih'.1 q hq)
      · simp only [keptFrom, hfind, List.map_cons]
        refine List.nodup_cons.mpr ⟨?_, ih'.2⟩
        intro hmem
        rcases List.mem_map.mp hmem with ⟨q, hq, hqe⟩
        have h1 : idxFind (idx ++ [(hsh p, p)]) (hsh q) = none := ih'.1 q hq
        rw [hqe, idxFind_insert_self p hfind] at h1
        exact absurd h1 (by simp)
    · have ih' := ih idx
      constructor
      · intro q hq
        simp only [keptFrom, hfind] at hq
        exact ih'.1 q hq
      · simp only [keptFrom, hfind]
        exact ih'.2

lemma dupsFrom_eq_nil (hsh : String → Fingerprint) :
    ∀ (L : List String) (idx : Index),
    (∀ p ∈ L, idxFind idx (hsh p) = none) → ((L.map hsh).Nodup) →
    dupsFrom hsh idx L = [] := by
  intro L
  induction L with
  | nil => intro idx _ _; rfl
  | cons p rest ih =>
    intro idx hnone hnd
    have hfind : idxFind idx (hsh p) = none := hnone p (List.mem_cons_self p rest)
    simp only [dupsFrom, hfind]
    have hmapnd : (hsh p :: rest.map hsh).Nodup := by simpa using hnd
    have hnotin : hsh p ∉ rest.map hsh := (List.nodup_cons.mp hmapnd).1
    apply ih
    · intro q hq
      have h1 : idxFind idx (hsh q) = none := hnone q (List.mem_cons_of_mem p hq)
      rw [idxFind_append_none h1]
      have hne : hsh p ≠ hsh q := by
        intro he
        exact hnotin (he ▸ List.mem_map_of_mem hsh hq)
      simp [idxFind, hne]
    · exact (List.nodup_cons.mp hmapnd).2

lemma filter_sublist_keptFrom (hsh : String → Fingerprint) (D : List String) :
    ∀ (L : List String) (idx : Index),
    (∀ x ∈ dupsFrom hsh idx L, x ∈ D) →
    List.Sublist (L.filter (fun p => decide (p ∉ D))) (keptFrom hsh idx L) := by
  intro L
  induction L with
  | nil =>
    intro idx _
    simp [keptFrom]
  | cons p rest ih =>
    intro idx hD
    rcases hfind : idxFind idx (hsh p) with _ | o
    · simp only [keptFrom, hfind]
      have hD' : ∀ x ∈ dupsFrom hsh (idx ++ [(hsh p, p)]) rest, x ∈ D := by
        intro x hx
        refine hD x ?_
        simp only [dupsFrom, hfind]
        exact hx
      by_cases hp : p ∈ D
      · have hc : decide (p ∉ D) = false := by simp [hp]
        simp only [List.filter, hc]
        exact (ih _ hD').cons p
      · have hc : decide (p ∉ D) = true := by simp [hp]
        simp only [List.filter, hc]
        exact (ih _ hD').cons₂ p
    · simp only [keptFrom, hfind]
      have hp : p ∈ D := by
        refine hD p ?_
        simp only [dupsFrom, hfind]
        exact List.mem_cons_self p _
      have hD' : ∀ x ∈ dupsFrom hsh idx rest, x ∈ D := by
        intro x hx
        refine hD x ?_
        simp only [dupsFrom, hfind]
        exact List.mem_cons_of_mem p hx
      have hc : decide (p ∉ D) = false := by simp [hp]
      simp only [List.filter, hc]
      exact ih _ hD'

/-! ## Concrete environments for counterexamples and witnesses -/

/-- A fingerprint oracle that always succeeds with the same hash. -/
def hashConst : String → Fingerprint := fun _ => some "h"

/-- A root that enumerates no files at all: the enumeration `os.walk` produces
for a missing, non-directory, or image-free root. -/
def envEmpty : Env :=
  { files := [], hash := fun _ => none, moveOk := fun _ => true,
    writeRaises := fun _ => false, openRaises := false }

/-- Two undecodable image files: `calculate_phash` fails (returns None) on
both; everything else succeeds. -/
def envC1 : Env :=
  { files := ["bad1.png", "bad2.png"], hash := fun _ => none,
    moveOk := fun _ => true, writeRaises := fun _ => false,
    openRaises := false }

/-- A single decodable image file, nothing failing. -/
def envA : Env :=
  { files := ["a.png"], hash := hashConst, moveOk := fun _ => true,
    writeRaises := fun _ => false, openRaises := false }

/-- Three image files of which b is a visual duplicate of a; all moves and
writes succeed. -/
def envDup : Env :=
  { files := ["a.png", "b.png", "c.png"],
    hash := fun p => if p = "a.png" then some "h"
      else if p = "b.png" then some "h" else some "k",
    moveOk := fun _ => true, writeRaises := fun _ => false,
    openRaises := false }

/-- Two duplicate pairs; the move to trash succeeds for duplicate b and fails
for duplicate d. -/
def envC3 : Env :=
  { files := ["a.png", "b.png", "c.png", "d.png"],
    hash := fun p => if p = "a.png" ∨ p = "b.png" then some "h" else some "k",
    moveOk := fun p => decide (p ≠ "d.png"),
    writeRaises := fun _ => false, openRaises := false }

/-- Three image files with one duplicate; every manifest write raises. -/
def envC4 : Env :=
  { files := ["a.png", "b.png", "c.png"],
    hash := fun p => if p = "a.png" then some "h"
      else if p = "b.png" then some "h" else some "k",
    moveOk := fun _ => true, writeRaises := fun _ => true,
    openRaises := false }

/-- A loop state in the middle of an `envC4` session: one unique file already
scanned and indexed, no writes yet. -/
def s0c4 : LoopState := ⟨[(some "h", "a.png")], 1, 0, [], [], []⟩

/-! ## Claims -/

/-- Claim C1, exhibiting the code bug: a file whose fingerprint computation
fails is not skipped.  In `envC1` both files are undecodable
(`calculate_phash` returns None on each); `compare_images` uses the returned
None as an ordinary dict key, so the second undecodable file collides with the
first, is reported as a duplicate of it, moved to trash, and recorded in the
manifest — contradicting the skip-file contract stated by the claim. -/
theorem c1_undecodable_file_trashed :
    envC1.hash "bad1.png" = none ∧ envC1.hash "bad2.png" = none
  ∧ dupEvents (scanImages envC1).events = [("bad2.png", "bad1.png")]
  ∧ (scanImages envC1).trashed = ["bad2.png"]
  ∧ (scanImages envC1).manifest = [manifestLine "bad1.png" "bad2.png"]
  ∧ (scanImages envC1).scanned = 2 := by decide

/-- Claim C2: the first observation of a fingerprint inserts
fingerprint → path into the dict and reports the file unique; every later
observation of that fingerprint reports a duplicate and returns the stored
original path without modifying the dict; and a stored binding persists
unchanged through any further portion of the session's loop. -/
theorem c2_first_seen_path_permanent (hsh : String → Fingerprint) (p q : String)
    (idx : Index) (env : Env) (total : Nat) (s : LoopState)
    (rest : List String) :
    (idxFind idx (hsh p) = none →
        (compare_images idx hsh p).is_dup = false
      ∧ (compare_images idx hsh p).index = idx ++ [(hsh p, p)]
      ∧ idxFind (compare_images idx hsh p).index (hsh p) = some p)
  ∧ (∀ o, idxFind idx (hsh q) = some o →
        (compare_images idx hsh q).is_dup = true
      ∧ (compare_images idx hsh q).original = some o
      ∧ (compare_images idx hsh q).index = idx)
  ∧ (∀ f o, idxFind s.index f = some o →
        idxFind (scanLoop env total s rest).1.index f = some o) := by
  refine ⟨?_, ?_, ?_⟩
  · intro h
    rw [compare_images_none h]
    exact ⟨rfl, rfl, idxFind_insert_self p h⟩
  · intro o h
    rw [compare_images_some h]
    exact ⟨rfl, rfl, rfl⟩
  · intro f o h
    exact scanLoop_find_mono env total rest s f o h

/-- Witness for C2 at a concrete input: the first observation of the constant
hash with path a.png inserts it and reports unique. -/
theorem c2_witness :
    idxFind [] (hashConst "a.png") = none
  ∧ ((compare_images [] hashConst "a.png").is_dup = false
      ∧ (compare_images [] hashConst "a.png").index
          = [] ++ [(hashConst "a.png", "a.png")]
      ∧ idxFind (compare_images [] hashConst "a.png").index (hashConst "a.png")
          = some "a.png") :=
  ⟨rfl, (c2_first_seen_path_permanent hashConst "a.png" "b.png" [] envEmpty 0
    initState []).1 rfl⟩

/-- Claim C3: when the manifest is writable and open succeeded, the manifest
lines are exactly one line, in the exact source format, per duplicate
notification whose move to trash succeeded, in order, and the files moved to
trash are exactly those same duplicates (a duplicate whose move failed is in
neither list, so it stays at its location and leaves no manifest line). -/
theorem c3_manifest_iff_quarantine (env : Env)
    (hw : ∀ n, env.writeRaises n = false) (ho : env.openRaises = false) :
    (scanImages env).manifest
      = ((dupEvents (scanImages env).events).filter
          (fun pr => env.moveOk pr.1)).map (fun pr => manifestLine pr.2 pr.1)
  ∧ (scanImages env).trashed
      = ((dupEvents (scanImages env).events).filter
          (fun pr => env.moveOk pr.1)).map Prod.fst := by
  have hnb : (loopRun env).2 = false := scanLoop_no_abort env hw _ _ _
  have hinv : manifestInv env (loopRun env).1 :=
    scanLoop_manifestInv env hw (countFiles env.files)
      (env.files.filter isImageFile) initState ⟨rfl, rfl⟩
  have hm1 : (scanImages env).manifest = (loopRun env).1.manifest := by
    simp [scanImages, ho, hnb]
  have ht1 : (scanImages env).trashed = (loopRun env).1.trashed := by
    simp [scanImages, ho, hnb]
  have hev : dupEvents (scanImages env).events
      = dupEvents (loopRun env).1.events := by
    simp [scanImages, ho, hnb, dupEvents_append, dupEvents]
  rw [hm1, ht1, hev]
  exact hinv

/-- Witness for C3 at a concrete input: duplicate b.png is moved and recorded,
duplicate d.png fails to move and is neither trashed nor recorded. -/
theorem c3_witness :
    ((∀ n, envC3.writeRaises n = false) ∧ envC3.openRaises = false)
  ∧ ((scanImages envC3).manifest
      = ((dupEvents (scanImages envC3).events).filter
          (fun pr => envC3.moveOk pr.1)).map (fun pr => manifestLine pr.2 pr.1)
    ∧ (scanImages envC3).trashed
      = ((dupEvents (scanImages envC3).events).filter
          (fun pr => envC3.moveOk pr.1)).map Prod.fst) :=
  ⟨⟨fun _ => rfl, rfl⟩, c3_manifest_iff_quarantine envC3 (fun _ => rfl) rfl⟩

/-- Counterexample to claim C4: in `envC4` (three discovered files, b a
duplicate of a, every manifest write raising) the write failure on the first
duplicate ends the scan after one progress event — the session does not
continue in degraded mode: c.png is never scanned or quarantined. -/
theorem c4_counterexample :
    countFiles envC4.files = 3
  ∧ (scanImages envC4).scanned = 1
  ∧ (scanImages envC4).aborted = true
  ∧ (scanImages envC4).events
      = [Event.progress 1 3, Event.duplicateFound "b.png" "a.png",
         Event.errorEvent, Event.done]
  ∧ (scanImages envC4).trashed = ["b.png"]
  ∧ (scanImages envC4).manifest = [] := by decide

/-- Claim C4 as amended: a mid-scan manifest write failure is not recovered.
The exception leaves the per-file loop at once: the quarantine already
performed stays performed but gets no manifest line and no progress event, and
the remaining files are neither scanned nor quarantined; the session-level
handler posts one error event and the terminal event still follows it. -/
theorem c4_write_failure_stops_scan (env : Env) (total : Nat) (s : LoopState)
    (p o : String) (rest : List String)
    (hfind : idxFind s.index (env.hash p) = some o)
    (hm : env.moveOk p = true) (hwr : env.writeRaises s.writes = true) :
    scanLoop env total s (p :: rest)
      = ({ s with events := s.events ++ [Event.duplicateFound p o],
                  trashed := s.trashed ++ [p] }, true)
  ∧ (env.openRaises = false → (loopRun env).2 = true →
      (scanImages env).events
        = (loopRun env).1.events ++ [Event.errorEvent, Event.done]) := by
  constructor
  · simp only [scanLoop, scanStep_dup_write_fails hfind hm hwr]
  · intro ho hb
    simp [scanImages, ho, hb]

/-- Witness for C4's amended theorem at a concrete mid-session state of
`envC4`. -/
theorem c4_witness :
    (idxFind s0c4.index (envC4.hash "b.png") = some "a.png"
      ∧ envC4.moveOk "b.png" = true ∧ envC4.writeRaises s0c4.writes = true)
  ∧ (scanLoop envC4 3 s0c4 ["b.png", "c.png"]
      = ({ s0c4 with
            events := s0c4.events ++ [Event.duplicateFound "b.png" "a.png"],
            trashed := s0c4.trashed ++ ["b.png"] }, true)
    ∧ (envC4.openRaises = false → (loopRun envC4).2 = true →
        (scanImages envC4).events
          = (loopRun envC4).1.events ++ [Event.errorEvent, Event.done])) :=
  ⟨⟨by decide, by decide, by decide⟩,
   c4_write_failure_stops_scan envC4 3 s0c4 "b.png" "a.png" ["c.png"]
     (by decide) (by decide) (by decide)⟩

/-- Counterexample to claim C5: with a root whose enumeration is empty — which
is what `os.walk` yields for a missing or non-directory root, raising nothing —
the session does not end in a Failed state and a manifest is produced: the
run opens (creates/truncates) duplicates.txt, posts no error event, and ends
with the normal Done terminal. -/
theorem c5_counterexample :
    (scanImages envEmpty).manifestCreated = true
  ∧ (scanImages envEmpty).events = [Event.done]
  ∧ (scanImages envEmpty).aborted = false
  ∧ (scanImages envEmpty).scanned = 0 := by decide

/-- Claim C5 as amended: `scan_images` performs no root validation.  A root
that enumerates nothing (in particular a missing or non-directory root, for
which `os.walk` silently yields no entries) produces a session that opens and
truncates duplicates.txt, scans zero files, posts no error event, and ends
with the normal Done terminal rather than a failure. -/
theorem c5_no_root_validation (env : Env) (hf : env.files = [])
    (ho : env.openRaises = false) :
    (scanImages env).events = [Event.done]
  ∧ (scanImages env).manifestCreated = true
  ∧ (scanImages env).scanned = 0
  ∧ (scanImages env).aborted = false := by
  simp [scanImages, loopRun, ho, hf, countFiles, scanLoop, initState]

/-- Witness for C5's amended theorem at the concrete empty enumeration. -/
theorem c5_witness :
    (envEmpty.files = [] ∧ envEmpty.openRaises = false)
  ∧ ((scanImages envEmpty).events = [Event.done]
      ∧ (scanImages envEmpty).manifestCreated = true
      ∧ (scanImages envEmpty).scanned = 0
      ∧ (scanImages envEmpty).aborted = false) :=
  ⟨⟨rfl, rfl⟩, c5_no_root_validation envEmpty rfl rfl⟩

/-- Counterexample to claim C6: there is no cancellation to observe.  In the
concrete session `envDup` the full trace is determined by the environment
alone — `scan_images` consults no cancellation flag — it contains no Cancelled
event, and the scan runs to the very last file (scanned equals the discovered
total), ending in the Done terminal. -/
theorem c6_counterexample :
    (scanImages envDup).events
      = [Event.progress 1 3, Event.duplicateFound "b.png" "a.png",
         Event.progress 2 3, Event.progress 3 3, Event.done]
  ∧ (scanImages envDup).events.filter isCancelledEvent = []
  ∧ (scanImages envDup).scanned = countFiles envDup.files := by decide

/-- Claim C6 as amended: the code has no cancellation mechanism.  No flag is
checked in the per-file loop, the event stream of any session never contains a
Cancelled event, and the last event of every session is the Done terminal. -/
theorem c6_no_cancellation (env : Env) :
    (scanImages env).events.filter isCancelledEvent = []
  ∧ (scanImages env).events.getLast? = some Event.done := by
  obtain ⟨pre, hsh, hpre⟩ := scanImages_events_shape env
  constructor
  · rw [hsh, List.filter_append]
    have h1 : pre.filter isCancelledEvent = [] := by
      rw [List.filter_eq_nil_iff]
      intro e he
      rcases hpre e he with h | h
      · cases e with
        | progress n d => simp [isCancelledEvent]
        | duplicateFound a b => simp [isCancelledEvent]
        | errorEvent => simp [isCancelledEvent]
        | done => simp [isCancelledEvent]
        | cancelled => exact h.elim
      · subst h
        simp [isCancelledEvent]
    rw [h1]
    simp [isCancelledEvent]
  · rw [hsh]
    exact List.getLast?_concat pre

/-- Claim C7: the counting pass fixes `total_files` before the processing loop
posts any event, so every per-file progress event of a session carries the
final discovered total as its divisor — fractions are meaningful from the
first file on. -/
theorem c7_progress_uses_final_total (env : Env) (n d : Nat)
    (hmem : Event.progress n d ∈ (scanImages env).events) :
    d = countFiles env.files := by
  obtain ⟨pre, hsh, hpre⟩ := scanImages_events_shape env
  rw [hsh] at hmem
  rcases List.mem_append.mp hmem with h | h
  · rcases hpre _ h with h1 | h1
    · simpa [loopEvent] using h1
    · exact absurd h1 (by simp)
  · simp at h

/-- Witness for C7 at a concrete input: the one progress event of `envA`
carries the discovered total of that session. -/
theorem c7_witness :
    Event.progress 1 1 ∈ (scanImages envA).events ∧ 1 = countFiles envA.files :=
  ⟨by decide, c7_progress_uses_final_total envA 1 1 (by decide)⟩

/-- Counterexample to claim C8: the terminal event reports no counts.  Two
sessions with different final counts (`envA`: 1 scanned, 0 duplicates;
`envDup`: 3 scanned, 1 duplicate) both end in the identical parameterless Done
event, so the terminal event cannot be reporting scanned, duplicate or
quarantine tallies. -/
theorem c8_counterexample :
    (scanImages envA).events.getLast? = some Event.done
  ∧ (scanImages envDup).events.getLast? = some Event.done
  ∧ (scanImages envA).scanned ≠ (scanImages envDup).scanned
  ∧ dupCount (scanImages envA).events ≠ dupCount (scanImages envDup).events := by
  decide

/-- Claim C8 as amended: every session posts exactly one terminal event — the
Done update from the `finally` clause — and it is the last event delivered;
but it is the same count-free Done event in every session: the final counts
are not part of the terminal event. -/
theorem c8_single_terminal_last (env : Env) :
    (scanImages env).events.filter isDoneEvent = [Event.done]
  ∧ (scanImages env).events.getLast? = some Event.done := by
  obtain ⟨pre, hsh, hpre⟩ := scanImages_events_shape env
  constructor
  · rw [hsh, List.filter_append]
    have h1 : pre.filter isDoneEvent = [] := by
      rw [List.filter_eq_nil_iff]
      intro e he
      rcases hpre e he with h | h
      · cases e with
        | progress n d => simp [isDoneEvent]
        | duplicateFound a b => simp [isDoneEvent]
        | errorEvent => simp [isDoneEvent]
        | done => exact h.elim
        | cancelled => simp [isDoneEvent]
      · subst h
        simp [isDoneEvent]
    rw [h1]
    simp [isDoneEvent]
  · rw [hsh]
    exact List.getLast?_concat pre

/-- Claim C9: rescanning after a run whose quarantines all succeeded finds no
duplicates.  When every move and every manifest write of the first run
succeeds, a second scan over the surviving files (same deterministic
fingerprints) reports a duplicate count of zero and writes an empty
manifest. -/
theorem c9_rescan_finds_no_duplicates (env : Env)
    (hmove : ∀ p, env.moveOk p = true)
    (hw : ∀ n, env.writeRaises n = false) (ho : env.openRaises = false) :
    dupCount (scanImages (secondRun env)).events = 0
  ∧ (scanImages (secondRun env)).manifest = [] := by
  have hnb : (loopRun env).2 = false := scanLoop_no_abort env hw _ _ _
  have hT : (scanImages env).trashed
      = dupsFrom env.hash [] (env.files.filter isImageFile) := by
    have ht1 : (scanImages env).trashed = (loopRun env).1.trashed := by
      simp [scanImages, ho, hnb]
    rw [ht1, loopRun, scanLoop_trashed env hmove hw]
    rfl
  have himgs2 : (secondRun env).files.filter isImageFile
      = (env.files.filter isImageFile).filter
          (fun p => decide (p ∉ (scanImages env).trashed)) := by
    show (env.files.filter
        (fun p => decide (p ∉ (scanImages env).trashed))).filter isImageFile = _
    simp only [List.filter_filter]
    apply List.filter_congr
    intro a _
    exact Bool.and_comm _ _
  have hsubl : List.Sublist
      ((env.files.filter isImageFile).filter
        (fun p => decide (p ∉ (scanImages env).trashed)))
      (keptFrom env.hash [] (env.files.filter isImageFile)) := by
    apply filter_sublist_keptFrom
    rw [hT]
    exact fun x hx => hx
  have hnodup : (((env.files.filter isImageFile).filter
      (fun p => decide (p ∉ (scanImages env).trashed))).map env.hash).Nodup :=
    ((keptFrom_spec env.hash (env.files.filter isImageFile) []).2).sublist
      (hsubl.map env.hash)
  have hnil : dupsFrom env.hash []
      ((secondRun env).files.filter isImageFile) = [] := by
    rw [himgs2]
    exact dupsFrom_eq_nil env.hash _ [] (fun p _ => rfl) hnodup
  have hw2 : ∀ n, (secondRun env).writeRaises n = false := hw
  have ho2 : (secondRun env).openRaises = false := ho
  have hnb2 : (loopRun (secondRun env)).2 = false :=
    scanLoop_no_abort (secondRun env) hw2 _ _ _
  have h2 := scanLoop_dupsFrom_nil (secondRun env)
      (countFiles (secondRun env).files)
      ((secondRun env).files.filter isImageFile) initState hnil
  have hev2 : dupEvents (scanImages (secondRun env)).events
      = dupEvents (loopRun (secondRun env)).1.events := by
    simp [scanImages, ho2, hnb2, dupEvents_append, dupEvents]
  have hman2 : (scanImages (secondRun env)).manifest
      = (loopRun (secondRun env)).1.manifest := by
    simp [scanImages, ho2, hnb2]
  constructor
  · have hde : dupEvents (scanImages (secondRun env)).events = [] := by
      rw [hev2]
      exact h2.1
    simp [dupCount, hde]
  · rw [hman2]
    exact h2.2

/-- Witness for C9 at a concrete input: in `envDup` the duplicate b.png is
quarantined by the first run, and the second run over the survivors finds
nothing. -/
theorem c9_witness :
    ((∀ p, envDup.moveOk p = true) ∧ (∀ n, envDup.writeRaises n = false)
      ∧ envDup.openRaises = false)
  ∧ (dupCount (scanImages (secondRun envDup)).events = 0
      ∧ (scanImages (secondRun envDup)).manifest = []) :=
  ⟨⟨fun _ => rfl, fun _ => rfl, rfl⟩,
   c9_rescan_finds_no_duplicates envDup (fun _ => rfl) (fun _ => rfl) rfl⟩

/-- Claim C10: the divisor of every emitted progress fraction is the discovered
total, which is at least 1 whenever a progress event exists at all (the loop
body only runs for files the counting pass counted); a session whose counting
pass found no allow-listed file — including one over a nonexistent root, whose
enumeration is empty — performs no division, posts no per-file progress event,
and delivers only the terminal event. -/
theorem c10_progress_divisor_positive (env : Env) :
    (∀ n d, Event.progress n d ∈ (scanImages env).events →
        d = countFiles env.files ∧ 1 ≤ d)
  ∧ (countFiles env.files = 0 → env.openRaises = false →
      (scanImages env).events = [Event.done]) := by
  have hempty : countFiles env.files = 0 → env.openRaises = false →
      (scanImages env).events = [Event.done] := by
    intro h0 ho
    have hfe : env.files.filter isImageFile = [] := List.length_eq_zero.mp h0
    simp [scanImages, loopRun, ho, hfe, scanLoop, initState]
  refine ⟨?_, hempty⟩
  intro n d hmem
  have hd : d = countFiles env.files := by
    obtain ⟨pre, hsh, hpre⟩ := scanImages_events_shape env
    rw [hsh] at hmem
    rcases List.mem_append.mp hmem with h | h
    · rcases hpre _ h with h1 | h1
      · simpa [loopEvent] using h1
      · exact absurd h1 (by simp)
    · simp at h
  refine ⟨hd, ?_⟩
  rcases Nat.eq_zero_or_pos (countFiles env.files) with h0 | h0
  · exfalso
    rcases hor : env.openRaises with _ | _
    · rw [hempty h0 hor] at hmem
      simp at hmem
    · have : (scanImages env).events = [Event.errorEvent, Event.done] := by
        simp [scanImages, hor]
      rw [this] at hmem
      simp at hmem
  · exact hd ▸ h0

/-- Witness for C10 at concrete inputs: the progress event of `envA` has
divisor 1, and the empty enumeration `envEmpty` delivers only the terminal
event. -/
theorem c10_witness :
    (1 = countFiles envA.files ∧ 1 ≤ 1)
  ∧ (scanImages envEmpty).events = [Event.done] :=
  ⟨(c10_progress_divisor_positive envA).1 1 1 (by decide),
   (c10_progress_divisor_positive envEmpty).2 rfl rfl⟩

end DupSleuth
